import Mathlib

/-!
Verification of `wallix_ssh.py` (PAPAMICA/wallix-ssh): a shallow embedding
of the cache store, history store, search/filter engine, device update,
device fetch and connector of `src/wallix_ssh.py`, together with theorems
settling the specification claims.

Conventions of the embedding:
* Python dicts with fixed keys become Lean structures with the same field
  names (`device_name`, `host`, `services`, `tags`, `description`; the
  cache format uses `nom`/`hote` as in the source).
* File I/O becomes explicit state passing: the cache file is an
  `Option Cache` value (`none` = file absent), the history file a
  `List HEntry`.
* Python exceptions that the source does not catch become `Except String`
  results; exceptions the source catches and logs become the fallback
  value the handler produces.
* `str.split(sep)` for a one-character separator is embedded by `pySplit`,
  which agrees with Python (splitting `""` gives `[""]`, empty pieces are
  kept).
* Machine timestamps are `String` where only stored and compared for
  nothing (cache), and `Nat` where their order matters (history).
-/

/-- Embedding of Python `str.split(c)` on the character list of a string:
splitting the empty list yields one empty piece, a separator character
closes the current piece and opens a new one. -/
def splitCL (c : Char) : List Char → List (List Char)
  | [] => [[]]
  | x :: xs =>
    let rest := splitCL c xs
    if x = c then [] :: rest
    else
      match rest with
      | h :: t => (x :: h) :: t
      | [] => [[x]]

/-- `pySplit s c` embeds Python `s.split(c)` for a single-character
separator `c`. -/
def pySplit (s : String) (c : Char) : List String :=
  (splitCL c s.data).map (fun l => ⟨l⟩)

/-- Does the character-list `needle` occur at the start of `hay`? -/
def startsWithCL : List Char → List Char → Bool
  | [], _ => true
  | _ :: _, [] => false
  | a :: as, b :: bs => a == b && startsWithCL as bs

/-- Does the character-list `needle` occur anywhere inside `hay`?
Embeds Python `needle in hay` for strings. -/
def containsCL (needle : List Char) : List Char → Bool
  | [] => startsWithCL needle []
  | b :: bs => startsWithCL needle (b :: bs) || containsCL needle bs

/-- Embedding of Python substring membership `needle in hay`. -/
def strInPy (needle hay : String) : Bool :=
  containsCL needle.data hay.data

/-- Embedding of Python `s.lower()`, character by character. -/
def pyLower (s : String) : String :=
  ⟨s.data.map Char.toLower⟩

/-- Embedding of Python `s.upper()`, character by character. -/
def pyUpper (s : String) : String :=
  ⟨s.data.map Char.toUpper⟩

/-- Embedding of Python `s.strip()`: drop leading and trailing
whitespace. -/
def pyStrip (s : String) : String :=
  ⟨(((s.data.dropWhile Char.isWhitespace).reverse.dropWhile Char.isWhitespace).reverse)⟩

/-- Embedding of a Python list indexing `l[i]` that raises `IndexError`
when out of range. -/
def pyIndex (l : List String) (i : Nat) : Except String String :=
  match l.get? i with
  | some x => Except.ok x
  | none => Except.error "IndexError: list index out of range"

/-- Truthiness of an optional string argument: Python treats both `None`
and `""` as false. -/
def truthy (o : Option String) : Bool :=
  match o with
  | none => false
  | some s => s ≠ ""

/-- A device tag as the API and the tool represent it: a dict with keys
`key` and `value`. -/
structure Tag where
  key : String
  value : String
deriving DecidableEq, Repr

/-- A device service as the API represents it: a dict with key
`service_name`. -/
structure Service where
  service_name : String
deriving DecidableEq, Repr

/-- A device in the rich format returned by `get_devices` (API shape). -/
structure Device where
  device_name : String
  host : String
  services : List Service
  tags : List Tag
  description : String
deriving DecidableEq, Repr

/-- A device in the simplified cache format written by `save_cache`
(source lines 141-147): tags and services are rendered to strings. -/
structure SimpDevice where
  nom : String
  hote : String
  services : List String
  tags : List String
  description : String
deriving DecidableEq, Repr

/-- The cache file contents (a parsed `CacheSnapshot`). -/
structure Cache where
  timestamp : String
  devices : List SimpDevice
deriving DecidableEq, Repr

/-- The simplified projection built inside `save_cache` (lines 140-148):
`nom`/`hote` copy the identity and host, services keep only
`service_name`, each tag is rendered as `"key:value"`. -/
def simplifyDevice (d : Device) : SimpDevice :=
  { nom := d.device_name
    hote := d.host
    services := d.services.map Service.service_name
    tags := d.tags.map (fun t => t.key ++ ":" ++ t.value)
    description := d.description }

/-- Embedding of `WallixManager.load_cache` (lines 93-126). `force_refresh`
returns `None` immediately; otherwise the devices stored in the file are
returned, an absent file gives `None`. (The age computation on lines
103-120 only formats a log message and is not modelled.) -/
def load_cache (force_refresh : Bool) (file : Option Cache) : Option (List SimpDevice) :=
  if force_refresh then none
  else
    match file with
    | some c => some c.devices
    | none => none

/-- Embedding of `WallixManager.save_cache` (lines 128-191). Returns the
new cache file contents and the list of devices reported as new. The
report (lines 159-188) is only computed when the old device list is
non-empty (`if old_devices:`); it keeps every simplified device whose
`nom` is not among the old names. -/
def save_cache (file : Option Cache) (now : String) (devices : List Device) :
    Cache × List SimpDevice :=
  let old_devices := match file with
    | some c => c.devices
    | none => []
  let simplified_devices := devices.map simplifyDevice
  let cache_data : Cache := { timestamp := now, devices := simplified_devices }
  let report :=
    if old_devices.isEmpty then []
    else
      let old_device_names := old_devices.map SimpDevice.nom
      simplified_devices.filter (fun d => ! old_device_names.contains d.nom)
  (cache_data, report)

/-- First example device from the spec (section 8). -/
def exWeb1 : Device :=
  { device_name := "web1"
    host := "10.0.0.1"
    services := [⟨"SSH"⟩]
    tags := [⟨"env", "prod"⟩]
    description := "frontend" }

/-- Second example device from the spec (section 8). -/
def exDb1 : Device :=
  { device_name := "db1"
    host := "10.0.0.2"
    services := [⟨"SSH"⟩, ⟨"RDP"⟩]
    tags := [⟨"env", "prod"⟩]
    description := "" }

/-- The simplified projection keeps the device identity. -/
theorem nom_simplifyDevice (d : Device) : (simplifyDevice d).nom = d.device_name := rfl

/-- Mapping the identity over the simplified projection gives the original
identities (C3/C4 helper). -/
theorem map_nom_map_simplify (l : List Device) :
    (l.map simplifyDevice).map SimpDevice.nom = l.map Device.device_name := by
  simp [List.map_map, Function.comp, simplifyDevice]

/-- C3 fails as stated: with S1 the empty device list and S2 containing one
device, the second `save_cache` reports nothing as new, although the set
difference of identities is nonempty (the source only compares when
`old_devices` is non-empty). -/
theorem save_cache_empty_s1_counterexample :
    (save_cache (some (save_cache none "t0" ([] : List Device)).fst) "t1" [exWeb1]).snd.map
        SimpDevice.nom ≠
      ([exWeb1].map Device.device_name).filter
        (fun n => ! (([] : List Device).map Device.device_name).contains n) := by
  decide

/-- Mapping `nom` commutes with filtering by a predicate on `nom`
(C3 helper). -/
theorem map_nom_filter_simplify (p : String → Bool) (l : List Device) :
    ((l.map simplifyDevice).filter (fun d => p d.nom)).map SimpDevice.nom
      = (l.map Device.device_name).filter p := by
  induction l with
  | nil => rfl
  | cons a t ih =>
    simp only [List.map_cons, List.filter_cons, nom_simplifyDevice]
    by_cases hp : p a.device_name = true
    · simp [hp, ih, nom_simplifyDevice]
    · simp [hp, ih, nom_simplifyDevice]

/-- C3 (amended): when S1 is non-empty, the second `save_cache` reports as
new exactly the device identities present in S2 but absent from S1 — a set
difference by device name, independent of order and of any other field.
When S1 is empty the comparison is skipped and nothing is reported. -/
theorem save_cache_report_diff (file : Option Cache) (t0 t1 : String)
    (S1 S2 : List Device) (h : S1 ≠ []) (n : String) :
    n ∈ (save_cache (some (save_cache file t0 S1).fst) t1 S2).snd.map SimpDevice.nom ↔
      n ∈ S2.map Device.device_name ∧ n ∉ S1.map Device.device_name := by
  have hne : (S1.map simplifyDevice).isEmpty = false := by
    cases S1 with
    | nil => exact absurd rfl h
    | cons a t => rfl
  simp only [save_cache, hne, Bool.false_eq_true, if_false]
  rw [map_nom_map_simplify,
    map_nom_filter_simplify (fun x => ! (S1.map Device.device_name).contains x) S2]
  simp [List.mem_filter, List.contains, decide_eq_true_iff]

/-- Witness for `save_cache_report_diff` at S1 = [web1], S2 = [web1, db1],
n = "db1". -/
theorem save_cache_report_diff_witness :
    ([exWeb1] ≠ ([] : List Device)) ∧
    ("db1" ∈ (save_cache (some (save_cache none "t0" [exWeb1]).fst) "t1"
          [exWeb1, exDb1]).snd.map SimpDevice.nom ↔
        "db1" ∈ [exWeb1, exDb1].map Device.device_name ∧
          "db1" ∉ [exWeb1].map Device.device_name) :=
  ⟨by decide, save_cache_report_diff none "t0" "t1" [exWeb1] [exWeb1, exDb1] (by decide) "db1"⟩

/-- C4: for every non-empty device list, `save_cache` followed immediately
by `load_cache` with `force_refresh = false` succeeds and returns a list
whose identities match the saved input's identities in the same order. -/
theorem save_then_load_identities (file : Option Cache) (now : String)
    (devices : List Device) (h : devices ≠ []) :
    ∃ loaded, load_cache false (some (save_cache file now devices).fst) = some loaded ∧
      loaded.map SimpDevice.nom = devices.map Device.device_name :=
  ⟨devices.map simplifyDevice, rfl, map_nom_map_simplify devices⟩

/-- Witness for `save_then_load_identities` on the one-device list. -/
theorem save_then_load_identities_witness :
    ([exWeb1] ≠ ([] : List Device)) ∧
    ∃ loaded, load_cache false (some (save_cache none "t0" [exWeb1]).fst) = some loaded ∧
      loaded.map SimpDevice.nom = [exWeb1].map Device.device_name :=
  ⟨by decide, save_then_load_identities none "t0" [exWeb1] (by decide)⟩

/-- Filtering a list with a fallible predicate, left to right: the first
raised exception propagates, as in a Python list comprehension. -/
def exceptFilter {α : Type} (p : α → Except String Bool) : List α → Except String (List α)
  | [] => Except.ok []
  | x :: xs =>
    match p x with
    | Except.error e => Except.error e
    | Except.ok b =>
      match exceptFilter p xs with
      | Except.error e => Except.error e
      | Except.ok rest => Except.ok (if b then x :: rest else rest)

/-- Mapping a fallible function over a list, left to right: the first
raised exception propagates, as in a Python list comprehension. -/
def exceptMap {α β : Type} (f : α → Except String β) : List α → Except String (List β)
  | [] => Except.ok []
  | x :: xs =>
    match f x with
    | Except.error e => Except.error e
    | Except.ok y =>
      match exceptMap f xs with
      | Except.error e => Except.error e
      | Except.ok ys => Except.ok (y :: ys)

/-- The regex predicate of `search_devices` (line 531): a case-insensitive
search against name, host or description. The regex engine itself is
external; it is passed in as `regexSearch pattern text`. -/
def regexMatchDevice (regexSearch : String → String → Bool) (pat : String) (d : Device) : Bool :=
  regexSearch pat d.device_name || regexSearch pat d.host || regexSearch pat d.description

/-- The service tokens of `search_devices` (line 535): comma-split,
trimmed, upper-cased. -/
def requiredServices (fs : String) : List String :=
  (pySplit fs ',').map (fun s => pyUpper (pyStrip s))

/-- The services predicate of `search_devices` (line 536): every required
token must appear among the device's upper-cased service names. -/
def servicesPred (required : List String) (d : Device) : Bool :=
  required.all (fun s => (d.services.map (fun sv => pyUpper sv.service_name)).contains s)

/-- The tag tokens of `search_devices` (line 540): comma-split, trimmed,
lower-cased. -/
def requiredTagTokens (ft : String) : List String :=
  (pySplit ft ',').map (fun t => pyLower (pyStrip t))

/-- The tags membership test of `search_devices` (line 541):
`all(t in [tag.lower() for tag in d.get('tags', [])] for t in required_tags)`.
At this point each element of `d['tags']` is a dict `{'key': .., 'value': ..}`
(both the API shape and the cache-conversion on line 224 produce dicts), so
evaluating the first membership test builds `[tag.lower() for tag in ...]`
and `.lower()` on a dict raises `AttributeError`; when the device has no
tags the inner list is `[]`, the first test is `False` and `all`
short-circuits to `False`. An empty token list makes `all` trivially true
(unreachable from a truthy `filter_tags`, since a split is never empty). -/
def tagMembershipPy (required : List String) (d : Device) : Except String Bool :=
  match required with
  | [] => Except.ok true
  | _ :: _ =>
    if d.tags.isEmpty then Except.ok false
    else Except.error "AttributeError: dict object has no attribute lower"

/-- The substring-query predicate of `search_devices` (lines 545-550):
case-insensitive substring match against name, host or description. -/
def queryPred (q : String) (d : Device) : Bool :=
  strInPy (pyLower q) (pyLower d.device_name) ||
  strInPy (pyLower q) (pyLower d.host) ||
  strInPy (pyLower q) (pyLower d.description)

/-- Embedding of the filtering stage of `WallixManager.search_devices`
(lines 519-550) over a given device list: the early return when all four
arguments are falsy, then the regex, services, tags and query filters in
source order. The interactive selection and the zero-result recovery
(lines 552-666) are modelled separately by `searchRefreshes`. -/
def search_devices (regexSearch : String → String → Bool) (devices : List Device)
    (query filter_regex filter_services filter_tags : Option String) :
    Except String (List Device) :=
  if !truthy query && !truthy filter_regex && !truthy filter_services && !truthy filter_tags then
    Except.ok devices
  else
    let results := devices
    let results :=
      if truthy filter_regex then
        results.filter (regexMatchDevice regexSearch (filter_regex.getD ""))
      else results
    let results :=
      if truthy filter_services then
        results.filter (servicesPred (requiredServices (filter_services.getD "")))
      else results
    let resultsE :=
      if truthy filter_tags then
        exceptFilter (tagMembershipPy (requiredTagTokens (filter_tags.getD ""))) results
      else Except.ok results
    match resultsE with
    | Except.error e => Except.error e
    | Except.ok results =>
      Except.ok (if truthy query then results.filter (queryPred (query.getD "")) else results)

/-- C1: the tags filter is broken in the source. On the spec's own
two-device example, `search_devices` with `tags="env:prod"` does not
return both devices: the membership test applies `.lower()` to tag dicts
and raises `AttributeError` (line 541), which no caller catches. -/
theorem search_tags_filter_raises :
    search_devices (fun _ _ => false) [exWeb1, exDb1] none none none (some "env:prod")
      = Except.error "AttributeError: dict object has no attribute lower" := by
  rfl

/-- C7: with all four filter arguments empty or absent, `search_devices`
returns the full device list unchanged and in original order, skipping
the predicate pipeline entirely (the result does not depend on the regex
engine). -/
theorem search_no_filters_identity (regexSearch : String → String → Bool)
    (devices : List Device) (query fr fs ft : Option String)
    (hq : truthy query = false) (hr : truthy fr = false)
    (hs : truthy fs = false) (ht : truthy ft = false) :
    search_devices regexSearch devices query fr fs ft = Except.ok devices := by
  simp [search_devices, hq, hr, hs, ht]

/-- Witness for `search_no_filters_identity`: all four arguments absent on
the spec's example list. -/
theorem search_no_filters_identity_witness :
    truthy none = false ∧
    search_devices (fun _ _ => false) [exWeb1, exDb1] none none none none
      = Except.ok [exWeb1, exDb1] :=
  ⟨rfl, search_no_filters_identity (fun _ _ => false) [exWeb1, exDb1]
    none none none none rfl rfl rfl rfl⟩

/-- A history file entry (source lines 302-309): denormalized display
fields plus the connection timestamp. Timestamps are modelled as `Nat`
(the source stores ISO-8601 strings, whose chronological order is their
order as instants). -/
structure HEntry where
  device_name : String
  host : String
  services : List String
  tags : List String
  description : String
  timestamp : Nat
deriving DecidableEq, Repr

/-- The new history entry built for a connection (lines 302-309). -/
def mkHistoryEntry (d : Device) (now : Nat) : HEntry :=
  { device_name := d.device_name
    host := d.host
    services := d.services.map Service.service_name
    tags := d.tags.map (fun t => t.key ++ ":" ++ t.value)
    description := d.description
    timestamp := now }

/-- The combined effect of lines 296-313: find the index of the first
entry whose `device_name` matches and `pop` it; when there is no match the
list is unchanged. -/
def popExisting (name : String) : List HEntry → List HEntry
  | [] => []
  | e :: t => if e.device_name = name then t else e :: popExisting name t

/-- Embedding of `WallixManager.update_history` (lines 287-324): remove
the first existing entry for the device, insert the new entry at index 0,
keep only the first 10 entries. -/
def update_history (history : List HEntry) (device : Device) (now : Nat) : List HEntry :=
  (mkHistoryEntry device now :: popExisting device.device_name history).take 10

/-- A sequence of connections recorded one after the other, each going
through `update_history`. -/
def recordAll (init : List HEntry) (conns : List (Device × Nat)) : List HEntry :=
  conns.foldl (fun h c => update_history h c.fst c.snd) init

/-- Most-recent-first order: timestamps never increase along the list. -/
def MostRecentFirst (h : List HEntry) : Prop :=
  h.Pairwise (fun a b => b.timestamp ≤ a.timestamp)

/-- The history invariant of the spec: at most one entry per device
identity, at most 10 entries, most-recent-first order. -/
def ValidHistory (h : List HEntry) : Prop :=
  (h.map HEntry.device_name).Nodup ∧ h.length ≤ 10 ∧ MostRecentFirst h

/-- Removing the first matching entry yields a sublist. -/
theorem popExisting_sublist (name : String) (h : List HEntry) :
    (popExisting name h).Sublist h := by
  induction h with
  | nil => exact List.Sublist.refl []
  | cons e t ih =>
    by_cases he : e.device_name = name
    · simp only [popExisting, he, if_true]
      exact (List.Sublist.refl t).cons e
    · simp only [popExisting, he, if_false]
      exact ih.cons₂ e

/-- After removing the first matching entry from a duplicate-free history,
the name is gone entirely. -/
theorem popExisting_not_mem (name : String) (h : List HEntry)
    (hn : (h.map HEntry.device_name).Nodup) :
    name ∉ (popExisting name h).map HEntry.device_name := by
  induction h with
  | nil => simp [popExisting]
  | cons e t ih =>
    rw [List.map_cons, List.nodup_cons] at hn
    by_cases he : e.device_name = name
    · simp only [popExisting, he, if_true]
      rw [← he]
      exact hn.1
    · simp only [popExisting, he, if_false, List.map_cons, List.mem_cons]
      rintro (rfl | hmem)
      · exact he rfl
      · exact ih hn.2 hmem

/-- A single `update_history` step preserves the history invariant, given
that the new connection is no older than every recorded entry. -/
theorem update_history_valid (h : List HEntry) (d : Device) (t : Nat)
    (hn : (h.map HEntry.device_name).Nodup) (hs : MostRecentFirst h)
    (ht : ∀ e ∈ h, e.timestamp ≤ t) :
    ValidHistory (update_history h d t) := by
  have hsub : (popExisting d.device_name h).Sublist h := popExisting_sublist _ h
  refine ⟨?_, ?_, ?_⟩
  · apply List.Nodup.sublist ((List.take_sublist _ _).map HEntry.device_name)
    rw [List.map_cons]
    exact List.nodup_cons.mpr
      ⟨popExisting_not_mem d.device_name h hn, (hsub.map HEntry.device_name).nodup hn⟩
  · rw [update_history, List.length_take]
    exact Nat.min_le_left _ _
  · apply List.Pairwise.sublist (List.take_sublist _ _)
    refine List.pairwise_cons.mpr ⟨?_, List.Pairwise.sublist hsub hs⟩
    intro e he
    exact ht e (hsub.subset he)

/-- Any sequence of connections with nondecreasing times, none older than
the starting history, preserves the invariant. -/
theorem recordAll_valid (init : List HEntry) (conns : List (Device × Nat))
    (hv : ValidHistory init)
    (hmono : List.Pairwise (fun a b => a.snd ≤ b.snd) conns)
    (hge : ∀ e ∈ init, ∀ c ∈ conns, e.timestamp ≤ c.snd) :
    ValidHistory (recordAll init conns) := by
  induction conns generalizing init with
  | nil => exact hv
  | cons c rest ih =>
    rw [List.pairwise_cons] at hmono
    have hstep : ValidHistory (update_history init c.fst c.snd) :=
      update_history_valid init c.fst c.snd hv.1 hv.2.2
        (fun e he => hge e he c (List.mem_cons_self c rest))
    refine ih (update_history init c.fst c.snd) hstep hmono.2 ?_
    intro e he c' hc'
    have he' : e ∈ mkHistoryEntry c.fst c.snd :: popExisting c.fst.device_name init :=
      List.take_subset _ _ he
    rcases List.mem_cons.mp he' with rfl | hmem
    · exact hmono.1 c' hc'
    · exact hge e ((popExisting_sublist _ init).subset hmem) c' (List.mem_cons_of_mem c hc')

/-- Example device A for the history scenario. -/
def exDevA : Device :=
  { device_name := "A", host := "10.0.0.3", services := [⟨"SSH"⟩], tags := [], description := "" }

/-- Example device B for the history scenario. -/
def exDevB : Device :=
  { device_name := "B", host := "10.0.0.4", services := [⟨"SSH"⟩], tags := [], description := "" }

/-- C5: from any valid history state, any sequence of recorded connections
(with nondecreasing connection times, none older than the recorded
entries) keeps the history duplicate-free by identity, capped at 10 and
most-recent-first; the new entry always lands at the front; and the
A-then-B-then-A scenario yields history `[A, B]`, not `[A, B, A]`. -/
theorem history_invariant (init : List HEntry) (conns : List (Device × Nat))
    (hv : ValidHistory init)
    (hmono : List.Pairwise (fun a b => a.snd ≤ b.snd) conns)
    (hge : ∀ e ∈ init, ∀ c ∈ conns, e.timestamp ≤ c.snd) :
    ValidHistory (recordAll init conns) ∧
    (∀ (h : List HEntry) (d : Device) (t : Nat),
      (update_history h d t).head? = some (mkHistoryEntry d t)) ∧
    (recordAll [] [(exDevA, 1), (exDevB, 2), (exDevA, 3)]).map HEntry.device_name
      = ["A", "B"] :=
  ⟨recordAll_valid init conns hv hmono hge, fun _ _ _ => rfl, by decide⟩

/-- Witness for `history_invariant`: the empty starting history with the
A, B, A connection sequence. -/
theorem history_invariant_witness :
    ValidHistory [] ∧
    (ValidHistory (recordAll [] [(exDevA, 1), (exDevB, 2), (exDevA, 3)]) ∧
      (∀ (h : List HEntry) (d : Device) (t : Nat),
        (update_history h d t).head? = some (mkHistoryEntry d t)) ∧
      (recordAll [] [(exDevA, 1), (exDevB, 2), (exDevA, 3)]).map HEntry.device_name
        = ["A", "B"]) :=
  ⟨⟨List.nodup_nil, by simp, List.Pairwise.nil⟩,
    history_invariant [] [(exDevA, 1), (exDevB, 2), (exDevA, 3)]
      ⟨List.nodup_nil, by simp, List.Pairwise.nil⟩
      (by decide) (by intro e he c hc; cases he)⟩

/-- The JSON body of the PUT request issued by `update_device`
(lines 477-494): identity, host, description and tags. -/
structure UpdatePayload where
  device_name : String
  host : String
  description : String
  tags : List Tag
deriving DecidableEq, Repr

/-- Parse of one `"key:value"` tag string:
`{'key': t.split(':')[0], 'value': t.split(':')[1]}`. This expression
appears twice in the source, in the cache conversion of `get_devices`
(line 224) and in the tag parse of `update_device` (lines 489-492). A
string without a colon raises `IndexError`. -/
def parseTagToken (s : String) : Except String Tag :=
  let parts := pySplit s ':'
  match pyIndex parts 0 with
  | Except.error e => Except.error e
  | Except.ok k =>
    match pyIndex parts 1 with
    | Except.error e => Except.error e
    | Except.ok v => Except.ok ⟨k, v⟩

/-- Embedding of `WallixManager.update_device` (lines 457-517) up to the
PUT request: the payload the tool sends, or `none` when no request is
issued (device not found on lines 467-474, or an `IndexError` in the tag
parse, caught by the handler on line 515). Authentication and the network
call itself are external collaborators. -/
def update_device (devices : List Device) (device_name : String)
    (description : Option String) (tags : Option String) : Option UpdatePayload :=
  match devices.find? (fun d => d.device_name = device_name) with
  | none => none
  | some device =>
    let desc := match description with
      | some s => s
      | none => device.description
    match tags with
    | some t =>
      match exceptMap parseTagToken (pySplit t ',') with
      | Except.ok tagList =>
        some { device_name := device.device_name, host := device.host,
               description := desc, tags := tagList }
      | Except.error _ => none
    | none =>
      some { device_name := device.device_name, host := device.host,
             description := desc, tags := device.tags }

/-- C6: a partial update never clobbers the untouched field. With only a
new description, `update_device` sends the device's existing tags
unchanged; with only new tags, any payload it sends carries the device's
existing description unchanged. -/
theorem update_device_partial_frame (devices : List Device) (name : String)
    (device : Device) (newDesc : String) (newTags : String)
    (hfind : devices.find? (fun d => d.device_name = name) = some device) :
    update_device devices name (some newDesc) none
      = some { device_name := device.device_name, host := device.host,
               description := newDesc, tags := device.tags } ∧
    (∀ p, update_device devices name none (some newTags) = some p →
      p.description = device.description) := by
  constructor
  · simp [update_device, hfind]
  · intro p hp
    simp only [update_device, hfind] at hp
    cases hmap : exceptMap parseTagToken (pySplit newTags ',') with
    | ok tagList =>
      rw [hmap] at hp
      simp only [Option.some.injEq] at hp
      rw [← hp]
    | error e =>
      rw [hmap] at hp
      cases hp

/-- Witness for `update_device_partial_frame` on the example device. -/
theorem update_device_partial_frame_witness :
    [exWeb1].find? (fun d => d.device_name = "web1") = some exWeb1 ∧
    (update_device [exWeb1] "web1" (some "backend") none
      = some { device_name := exWeb1.device_name, host := exWeb1.host,
               description := "backend", tags := exWeb1.tags } ∧
    (∀ p, update_device [exWeb1] "web1" none (some "env:dev") = some p →
      p.description = exWeb1.description)) :=
  ⟨by decide,
    update_device_partial_frame [exWeb1] "web1" exWeb1 "backend" "env:dev" (by decide)⟩

/-- Outcome of the HTTP GET on `/api/devices?limit=-1` (lines 231-236):
either a network error (`requests.exceptions.RequestException`) or a
response with a status code and a JSON device list. -/
inductive FetchResult
  | netError
  | ok (status : Nat) (devices : List Device)
deriving DecidableEq, Repr

/-- Embedding of the fetch branch of `WallixManager.get_devices`
(lines 228-252): status 200 or 206 saves the fetched list to the cache
and returns it; any other status, or a network error, is logged and
yields the empty list with the cache untouched. Returns the device list
and the resulting cache file. -/
def fetch_devices (resp : FetchResult) (file : Option Cache) (now : String) :
    List Device × Option Cache :=
  match resp with
  | FetchResult.netError => ([], file)
  | FetchResult.ok status devices =>
    if status ∈ ([200, 206] : List Nat) then
      (devices, some (save_cache file now devices).fst)
    else ([], file)

/-- The cache-to-rich conversion of `get_devices` (lines 220-226): `nom`
and `hote` back to identity and host, service names wrapped again, each
`"key:value"` tag string split into a dict (with `IndexError` on a
colon-free string, uncaught: the conversion sits outside the `try` of
lines 229-252). -/
def cacheToDevice (sd : SimpDevice) : Except String Device :=
  match exceptMap parseTagToken sd.tags with
  | Except.error e => Except.error e
  | Except.ok tags =>
    Except.ok { device_name := sd.nom, host := sd.hote,
                services := sd.services.map (fun s => ⟨s⟩),
                tags := tags, description := sd.description }

/-- Embedding of `WallixManager.get_devices` (lines 214-252): without
`force_refresh`, a loadable cache is converted back to the rich format
and returned with the cache file untouched; otherwise the inventory is
fetched. -/
def get_devices (force_refresh : Bool) (file : Option Cache) (resp : FetchResult)
    (now : String) : Except String (List Device × Option Cache) :=
  if !force_refresh then
    match load_cache force_refresh file with
    | some cached =>
      match exceptMap cacheToDevice cached with
      | Except.ok ds => Except.ok (ds, file)
      | Except.error e => Except.error e
    | none => Except.ok (fetch_devices resp file now)
  else Except.ok (fetch_devices resp file now)

/-- C8: the fetch is fail-soft. A network error, or any status other than
200/206, returns an empty list and leaves the cache untouched; a 200/206
response saves the fetched list to the cache and returns it. -/
theorem fetch_devices_contract (st : Nat) (devs : List Device)
    (file : Option Cache) (now : String) :
    fetch_devices FetchResult.netError file now = ([], file) ∧
    (st ∉ ([200, 206] : List Nat) →
      fetch_devices (FetchResult.ok st devs) file now = ([], file)) ∧
    (st ∈ ([200, 206] : List Nat) →
      fetch_devices (FetchResult.ok st devs) file now
        = (devs, some (save_cache file now devs).fst)) := by
  refine ⟨rfl, ?_, ?_⟩ <;> intro h <;> simp [fetch_devices, h]

/-- Witness for `fetch_devices_contract` at statuses 404 and 200. -/
theorem fetch_devices_contract_witness :
    fetch_devices (FetchResult.ok 404 [exWeb1]) none "t0" = ([], none) ∧
    fetch_devices (FetchResult.ok 200 [exWeb1]) none "t0"
      = ([exWeb1], some (save_cache none "t0" [exWeb1]).fst) :=
  ⟨(fetch_devices_contract 404 [exWeb1] none "t0").2.1 (by decide),
   (fetch_devices_contract 200 [exWeb1] none "t0").2.2 (by decide)⟩

/-- Splitting never produces the empty list of pieces. -/
theorem splitCL_ne_nil (c : Char) (l : List Char) : splitCL c l ≠ [] := by
  cases l with
  | nil => simp [splitCL]
  | cons x xs =>
    simp only [splitCL]
    by_cases hx : x = c
    · simp [hx]
    · simp only [hx, if_false]
      cases hrest : splitCL c xs <;> simp

/-- Splitting at the first separator: with no separator in `a`, splitting
`a ++ c :: b` yields `a` and then the pieces of `b`. -/
theorem splitCL_append (c : Char) (a b : List Char) (h : c ∉ a) :
    splitCL c (a ++ c :: b) = a :: splitCL c b := by
  induction a with
  | nil => simp [splitCL]
  | cons x xs ih =>
    have hx : ¬ x = c := fun e => h (e ▸ List.mem_cons_self x xs)
    have hxs : c ∉ xs := fun hm => h (List.mem_cons_of_mem x hm)
    simp only [List.cons_append, splitCL, List.append_eq]
    rw [ih hxs]
    simp [hx]

/-- A separator-free character list splits into a single piece. -/
theorem splitCL_no_sep (c : Char) (a : List Char) (h : c ∉ a) :
    splitCL c a = [a] := by
  induction a with
  | nil => rfl
  | cons x xs ih =>
    have hx : ¬ x = c := fun e => h (e ▸ List.mem_cons_self x xs)
    have hxs : c ∉ xs := fun hm => h (List.mem_cons_of_mem x hm)
    simp only [splitCL, ih hxs, hx, if_false]

/-- Rebuilding a string from its character data is the identity. -/
theorem mk_data (s : String) : (⟨s.data⟩ : String) = s := rfl

/-- The first colon-separated segment of a string (what survives of a tag
value after the lossy cache round trip). -/
def truncAtColon (v : String) : String :=
  (pySplit v ':').headD ""

/-- A colon-free string is its own first segment. -/
theorem truncAtColon_no_colon (v : String) (hv : ':' ∉ v.data) :
    truncAtColon v = v := by
  rw [truncAtColon, pySplit, splitCL_no_sep ':' v.data hv]
  rfl

/-- Parsing a rendered `"key:value"` string, for a colon-free key,
recovers the key and the first colon-separated segment of the value. -/
theorem parseTagToken_rendered (t : Tag) (hk : ':' ∉ t.key.data) :
    parseTagToken (t.key ++ ":" ++ t.value)
      = Except.ok ⟨t.key, truncAtColon t.value⟩ := by
  obtain ⟨r0, r', hr⟩ := List.exists_cons_of_ne_nil (splitCL_ne_nil ':' t.value.data)
  have hdata : (t.key ++ ":" ++ t.value).data = t.key.data ++ ':' :: t.value.data := by
    simp [String.data_append]
  have hparts : pySplit (t.key ++ ":" ++ t.value) ':'
      = t.key :: (splitCL ':' t.value.data).map (fun l => (⟨l⟩ : String)) := by
    rw [pySplit, hdata, splitCL_append ':' _ _ hk, List.map_cons, mk_data]
  rw [parseTagToken, hparts, hr]
  simp [pyIndex, truncAtColon, pySplit, hr]

/-- The device a lossy cache round trip produces: tag values are cut at
their first colon, everything else is unchanged. -/
def truncTagDevice (d : Device) : Device :=
  { d with tags := d.tags.map (fun t => ⟨t.key, truncAtColon t.value⟩) }

/-- Parsing the rendered tag strings of a whole tag list, for colon-free
keys, truncates every value at its first colon. -/
theorem exceptMap_parse_rendered (tags : List Tag) (hk : ∀ t ∈ tags, ':' ∉ t.key.data) :
    exceptMap parseTagToken (tags.map (fun t => t.key ++ ":" ++ t.value))
      = Except.ok (tags.map (fun t => (⟨t.key, truncAtColon t.value⟩ : Tag))) := by
  induction tags with
  | nil => rfl
  | cons a rest ih =>
    have ha : ':' ∉ a.key.data := hk a (List.mem_cons_self a rest)
    have hrest : ∀ t ∈ rest, ':' ∉ t.key.data :=
      fun t ht => hk t (List.mem_cons_of_mem a ht)
    simp only [List.map_cons, exceptMap, parseTagToken_rendered a ha, ih hrest]

/-- Wrapping the projected service names again recovers the services. -/
theorem services_roundtrip (svs : List Service) :
    (svs.map Service.service_name).map (fun s => (⟨s⟩ : Service)) = svs := by
  induction svs with
  | nil => rfl
  | cons a rest ih => simp only [List.map_cons, ih]

/-- Converting the simplified projection back (the cache round trip of a
single device) truncates tag values at their first colon, when every tag
key is colon-free. -/
theorem cacheToDevice_simplify (d : Device) (hk : ∀ t ∈ d.tags, ':' ∉ t.key.data) :
    cacheToDevice (simplifyDevice d) = Except.ok (truncTagDevice d) := by
  rw [cacheToDevice]
  simp only [simplifyDevice, exceptMap_parse_rendered d.tags hk, services_roundtrip d.services]
  rfl

/-- Truncating every tag value at its first colon is the identity when no
value contains a colon. -/
theorem map_trunc_id (tags : List Tag) (hv : ∀ t ∈ tags, ':' ∉ t.value.data) :
    tags.map (fun t => (⟨t.key, truncAtColon t.value⟩ : Tag)) = tags := by
  induction tags with
  | nil => rfl
  | cons a rest ih =>
    have ha : ':' ∉ a.value.data := hv a (List.mem_cons_self a rest)
    have hrest : ∀ t ∈ rest, ':' ∉ t.value.data :=
      fun t ht => hv t (List.mem_cons_of_mem a ht)
    simp only [List.map_cons, truncAtColon_no_colon a.value ha, ih hrest]

/-- A device with colon-free tag values survives truncation unchanged. -/
theorem truncTagDevice_id (d : Device) (hv : ∀ t ∈ d.tags, ':' ∉ t.value.data) :
    truncTagDevice d = d := by
  rw [truncTagDevice, map_trunc_id d.tags hv]

/-- List version of `cacheToDevice_simplify`. -/
theorem exceptMap_cacheToDevice_simplify (L : List Device)
    (hk : ∀ d ∈ L, ∀ t ∈ d.tags, ':' ∉ t.key.data) :
    exceptMap cacheToDevice (L.map simplifyDevice) = Except.ok (L.map truncTagDevice) := by
  induction L with
  | nil => rfl
  | cons a rest ih =>
    have ha : ∀ t ∈ a.tags, ':' ∉ t.key.data := hk a (List.mem_cons_self a rest)
    have hrest : ∀ d ∈ rest, ∀ t ∈ d.tags, ':' ∉ t.key.data :=
      fun d hd => hk d (List.mem_cons_of_mem a hd)
    simp only [List.map_cons, exceptMap, cacheToDevice_simplify a ha, ih hrest]

/-- List version of `truncTagDevice_id`. -/
theorem map_truncTagDevice_id (L : List Device)
    (hv : ∀ d ∈ L, ∀ t ∈ d.tags, ':' ∉ t.value.data) :
    L.map truncTagDevice = L := by
  induction L with
  | nil => rfl
  | cons a rest ih =>
    have ha : truncTagDevice a = a := truncTagDevice_id a (hv a (List.mem_cons_self a rest))
    have hrest : ∀ d ∈ rest, ∀ t ∈ d.tags, ':' ∉ t.value.data :=
      fun d hd => hv d (List.mem_cons_of_mem a hd)
    simp only [List.map_cons, ha, ih hrest]

/-- A device whose tag key itself contains a colon. -/
def exColonKey : Device :=
  { device_name := "ck"
    host := "10.0.0.5"
    services := []
    tags := [⟨"a:b", "c"⟩]
    description := "" }

/-- C10 fails as stated: `exColonKey` has colon-free tag values, yet the
cache round trip through `save_cache` and `get_devices` does not
reproduce its tag pairs — the rendered string `"a:b:c"` is reparsed as
key `"a"`, value `"b"`. -/
theorem cache_roundtrip_counterexample :
    (∀ t ∈ exColonKey.tags, ':' ∉ t.value.data) ∧
    get_devices false (some (save_cache none "t0" [exColonKey]).fst) FetchResult.netError "t1"
      = Except.ok ([{ exColonKey with tags := [(⟨"a", "b"⟩ : Tag)] }],
          some (save_cache none "t0" [exColonKey]).fst) ∧
    ({ exColonKey with tags := [(⟨"a", "b"⟩ : Tag)] } : Device) ≠ exColonKey :=
  ⟨by decide, rfl, by decide⟩

/-- C10 (amended): for devices whose tag keys are colon-free, the cache
round trip (`save_cache` then `get_devices` without refresh) returns the
same devices with every tag value truncated at its first colon; when the
values are also colon-free the round trip is exact. -/
theorem cache_roundtrip_tags (file : Option Cache) (t0 t1 : String) (resp : FetchResult)
    (L : List Device) (hk : ∀ d ∈ L, ∀ t ∈ d.tags, ':' ∉ t.key.data) :
    get_devices false (some (save_cache file t0 L).fst) resp t1
      = Except.ok (L.map truncTagDevice, some (save_cache file t0 L).fst) ∧
    ((∀ d ∈ L, ∀ t ∈ d.tags, ':' ∉ t.value.data) → L.map truncTagDevice = L) := by
  constructor
  · have hc : (save_cache file t0 L).fst
        = { timestamp := t0, devices := L.map simplifyDevice } := rfl
    have hred : get_devices false
          (some { timestamp := t0, devices := L.map simplifyDevice }) resp t1
        = match exceptMap cacheToDevice (L.map simplifyDevice) with
          | Except.ok ds =>
            Except.ok (ds, some { timestamp := t0, devices := L.map simplifyDevice })
          | Except.error e => Except.error e := rfl
    rw [hc, hred, exceptMap_cacheToDevice_simplify L hk]
  · exact map_truncTagDevice_id L

/-- Witness for `cache_roundtrip_tags` on the one-device example list. -/
theorem cache_roundtrip_tags_witness :
    (∀ d ∈ [exWeb1], ∀ t ∈ d.tags, ':' ∉ t.key.data) ∧
    (get_devices false (some (save_cache none "t0" [exWeb1]).fst) FetchResult.netError "t1"
      = Except.ok ([exWeb1].map truncTagDevice, some (save_cache none "t0" [exWeb1]).fst) ∧
    ((∀ d ∈ [exWeb1], ∀ t ∈ d.tags, ':' ∉ t.value.data) →
      [exWeb1].map truncTagDevice = [exWeb1])) :=
  ⟨by decide, cache_roundtrip_tags none "t0" "t1" FetchResult.netError [exWeb1] (by decide)⟩

/-- Observable actions of `connect_to_device`: the history write and the
remote-shell subprocess invocation. -/
inductive ConnectEvent
  | record (device_name : String)
  | shell (cmd : String)
deriving DecidableEq, Repr

/-- The base ssh command line of `connect_to_device` (lines 413, 416,
450): the login identity is the fixed `"Interactive"` account when the
`interactive` flag is set, else the configured username. -/
def sshBase (username : String) (interactive : Bool) (device : Device)
    (bastion_host : String) : String :=
  let uname := if interactive then "Interactive" else username
  "ssh -tt -A -p 22 " ++ uname ++ "@" ++ device.device_name ++ ":SSH:" ++
    username ++ "@" ++ bastion_host

/-- The deployment command of `connect_to_device` (lines 419-448): each
deploy file that can be read locally (`readFile` gives `none` on
`FileNotFoundError`, which is logged and skipped) becomes an inline
`echo | base64 -d | gunzip` write to `/tmp`; gzip-plus-base64 of the file
content is the external `encode`. If `.bashrc_remote` is in the deploy
list the remote shell starts with it as rcfile, else as a login shell;
with no deployable content the command is a bare login shell. -/
def buildDeployCmd (encode : String → String) (readFile : String → Option String)
    (deploy_files : List String) : String :=
  let files_content := deploy_files.filterMap
    (fun filename => (readFile filename).map
      (fun content => ("/tmp/" ++ filename, encode content)))
  if files_content.isEmpty then "bash -l"
  else
    let deploy_cmd := String.intercalate " && " (files_content.map
      (fun fc => "echo \x27" ++ fc.snd ++ "\x27 | base64 -d | gunzip > " ++ fc.fst))
    if deploy_files.contains ".bashrc_remote" then
      deploy_cmd ++ " && bash --rcfile /tmp/.bashrc_remote"
    else
      deploy_cmd ++ " && bash -l"

/-- Embedding of `WallixManager.connect_to_device` (lines 399-455) as its
trace of observable actions: the history write of line 402 happens before
any command building, and the subprocess invocation of line 455 is the
final action, whose exit status the source never inspects (the
`update_history` state change itself is modelled by `update_history`). -/
def connect_to_device (encode : String → String) (readFile : String → Option String)
    (deploy_files : List String) (username bastion_host : String)
    (device : Device) (interactive no_deploy : Bool) : List ConnectEvent :=
  let base := sshBase username interactive device bastion_host
  let ssh_command :=
    if no_deploy then base
    else if interactive then base
    else base ++ " \x27" ++ buildDeployCmd encode readFile deploy_files ++ "\x27"
  [ConnectEvent.record device.device_name, ConnectEvent.shell ssh_command]

/-- C9: in every branch of `connect_to_device` — deploy, interactive,
no-deploy, unreadable deploy files — the history entry for the device is
recorded first, before the single shell invocation, so the recording does
not depend on how the shell invocation turns out. -/
theorem connect_records_history_first (encode : String → String)
    (readFile : String → Option String) (deploy_files : List String)
    (username bastion_host : String) (device : Device)
    (interactive no_deploy : Bool) :
    ∃ cmd, connect_to_device encode readFile deploy_files username bastion_host
        device interactive no_deploy
      = [ConnectEvent.record device.device_name, ConnectEvent.shell cmd] :=
  ⟨_, rfl⟩

/-- Control-flow skeleton of the zero-result recovery of `search_devices`
(lines 603-666), counting forced refreshes. `resultsAt n` is the result
list of the same search after `n` forced refreshes, `authOk n` the
outcome of the nth authentication, `responses` the stream of answers to
the refresh prompt (line 606; empty input defaults to `"y"`). A non-empty
result performs no refresh; an accepted prompt authenticates, refreshes
once and re-enters the whole search (the recursive call of line 612),
which can prompt again. An exhausted response stream models a prompt that
blocks forever. -/
def searchRefreshes (resultsAt : Nat → List Device) (authOk : Nat → Bool) :
    Nat → List String → Nat
  | _, [] => 0
  | n, r :: rest =>
    if resultsAt n ≠ [] then 0
    else
      let response := if pyLower r = "" then "y" else pyLower r
      if response = "y" then
        if authOk n then 1 + searchRefreshes resultsAt authOk (n + 1) rest
        else 0
      else 0

/-- Control-flow skeleton of the connect-by-name recovery in `main`
(lines 795-819), counting forced refreshes: when the lookup against the
cached list fails, one prompt (line 806; empty input defaults to `"y"`),
one authentication, one forced refresh and one retry of the lookup; a
second failure only logs "Machine not found after refresh". -/
def connectRefreshes (found : Bool) (authOk : Bool) (response : String) : Nat :=
  if found then 0
  else
    let resp := if pyLower response = "" then "y" else pyLower response
    if resp = "y" then
      if authOk then 1 else 0
    else 0

/-- C2 fails as stated for the search flow: with a search that keeps
finding nothing and two accepting (empty) answers, two forced
refresh-and-retry rounds are performed — the recursion of line 612 offers
a second refresh after a failed retry. -/
theorem search_second_refresh_counterexample :
    searchRefreshes (fun _ => []) (fun _ => true) 0 ["", ""] = 2 := by
  rfl

/-- C2 (amended): the connect-by-name recovery performs at most one
forced refresh and never offers a second one; the search recovery,
however, re-enters the full search after a refresh, so a retry that again
yields nothing offers a further refresh — its refresh count is bounded
only by the number of user responses, one refresh per acceptance. -/
theorem refresh_retry_bounds (resultsAt : Nat → List Device) (authOk : Nat → Bool)
    (found cAuthOk : Bool) (response : String) (n : Nat) (responses : List String) :
    connectRefreshes found cAuthOk response ≤ 1 ∧
    searchRefreshes resultsAt authOk n responses ≤ responses.length := by
  constructor
  · simp only [connectRefreshes]
    repeat' split
    all_goals omega
  · induction responses generalizing n with
    | nil => exact Nat.zero_le 0
    | cons r rest ih =>
      have h := ih (n + 1)
      simp only [searchRefreshes, List.length_cons]
      repeat' split
      all_goals omega
